import Mathlib

/-!
# Verification of the pg_isomap MIDI remapper

Shallow embedding of the core of `pg_isomap` (a live MIDI remapper between an
isomorphic pad controller and a microtonal synthesizer) and proofs about it.

Embedded components:
* `src/pg_isomap/midi_handler.py` — bounded input queue, the remap-thread
  message step, and the MIDI stream parser;
* `src/pg_isomap/layouts/{isomorphic,string_like,piano_like}.py` — the three
  layout calculators, their `calculate_mapping` and `apply_transformation`;
* `src/pg_isomap/tuning.py` — the tuning handler's MOS rebuild and its
  chromatic fallback;
* the template built-in `cumulativeIndex` (referenced from
  `midi_setup.py` but not present in the source snapshot — modelled from the
  spec).

Python dictionaries are modelled as association lists, machine integers as
`Int`/`Nat` (MIDI data bytes are `Nat`), Python `//` and `%` on `Int` as
`Int.fdiv`/`Int.fmod` (floor semantics), and the floating-point three-point
affine fit of the external `scalatrix` library as exact arithmetic over `ℚ`
with Python's round-half-to-even.
-/

namespace PGIsomap

/-- Association-list lookup modelling Python `dict.get` / `in` tests
(keys in the program are ints and int pairs, for which Python `==`
agrees with decidable equality). -/
def dictLookup {α β : Type} [DecidableEq α] (k : α) : List (α × β) → Option β
  | [] => none
  | (k2, v) :: rest => if k2 = k then some v else dictLookup k rest

theorem dictLookup_cons {α β : Type} [DecidableEq α] (k k2 : α) (v : β) (rest : List (α × β)) :
    dictLookup k ((k2, v) :: rest) = if k2 = k then some v else dictLookup k rest := rfl

/-- A successful lookup returns a value stored in the list. -/
theorem dictLookup_mem {α β : Type} [DecidableEq α] {k : α} {v : β} :
    ∀ {l : List (α × β)}, dictLookup k l = some v → (k, v) ∈ l := by
  intro l
  induction l with
  | nil => intro h; simp [dictLookup] at h
  | cons hd tl ih =>
    intro h
    obtain ⟨k2, v2⟩ := hd
    rw [dictLookup_cons] at h
    by_cases hk : k2 = k
    · subst hk
      simp at h
      simp [h]
    · simp [hk] at h
      exact List.mem_cons_of_mem _ (ih h)

/-! ## Integer affine transforms (`scalatrix.IntegerAffineTransform`)

`M(v) = A·v + t` with `A = [[a, b], [c, d]]`, `t = (tx, ty)`, all integers.
-/

structure IntegerAffineTransform where
  a : Int
  b : Int
  c : Int
  d : Int
  tx : Int
  ty : Int
deriving DecidableEq, Repr

namespace IntegerAffineTransform

def apply (M : IntegerAffineTransform) (v : Int × Int) : Int × Int :=
  (M.a * v.1 + M.b * v.2 + M.tx, M.c * v.1 + M.d * v.2 + M.ty)

def det (M : IntegerAffineTransform) : Int := M.a * M.d - M.b * M.c

/-- Integer inverse: defined exactly when the linear part is unimodular
(`det = ±1`); scalatrix raises otherwise, modelled as `none`. -/
def inverse (M : IntegerAffineTransform) : Option IntegerAffineTransform :=
  if M.det = 1 ∨ M.det = -1 then
    let ia := M.det * M.d
    let ib := -(M.det * M.b)
    let ic := -(M.det * M.c)
    let id_ := M.det * M.a
    some ⟨ia, ib, ic, id_, -(ia * M.tx + ib * M.ty), -(ic * M.tx + id_ * M.ty)⟩
  else
    none

/-- Affine composition: `(T.applyAffine S) v = T (S v)` (scalatrix
`applyAffine`; the spec reads the update `M_trans.applyAffine (delta.applyAffine M_mat)`
as the product `t_only(M) · D · a_only(M)`). -/
def applyAffine (T S : IntegerAffineTransform) : IntegerAffineTransform :=
  ⟨T.a * S.a + T.b * S.c,
   T.a * S.b + T.b * S.d,
   T.c * S.a + T.d * S.c,
   T.c * S.b + T.d * S.d,
   T.a * S.tx + T.b * S.ty + T.tx,
   T.c * S.tx + T.d * S.ty + T.ty⟩

end IntegerAffineTransform

/-! ## Isomorphic layout: `apply_transformation`
(`layouts/isomorphic.py`, lines 68–149) -/

inductive GridKind where
  | rect
  | hex
deriving DecidableEq, Repr

open IntegerAffineTransform in
/-- The delta transform selected for a transformation kind, `none` for an
unrecognized kind (isomorphic.py lines 81–142). -/
def isoDelta (quadOrHex : GridKind) (transformType : String) :
    Option IntegerAffineTransform :=
  match quadOrHex with
  | .rect =>
    if transformType = "shift_left" then some ⟨1, 0, 0, 1, -1, 0⟩
    else if transformType = "shift_right" then some ⟨1, 0, 0, 1, 1, 0⟩
    else if transformType = "shift_up" then some ⟨1, 0, 0, 1, 0, 1⟩
    else if transformType = "shift_down" then some ⟨1, 0, 0, 1, 0, -1⟩
    else if transformType = "skew_left" then some ⟨1, -1, 0, 1, 0, 0⟩
    else if transformType = "skew_right" then some ⟨1, 1, 0, 1, 0, 0⟩
    else if transformType = "rotate_left" then some ⟨0, -1, 1, 0, 0, 0⟩
    else if transformType = "rotate_right" then some ⟨0, 1, -1, 0, 0, 0⟩
    else if transformType = "reflect_horizontal" then some ⟨1, 0, 0, -1, 0, 0⟩
    else if transformType = "reflect_vertical" then some ⟨-1, 0, 0, 1, 0, 0⟩
    else none
  | .hex =>
    if transformType = "shift_left" then some ⟨1, 0, 0, 1, -1, 0⟩
    else if transformType = "shift_right" then some ⟨1, 0, 0, 1, 1, 0⟩
    else if transformType = "shift_upright" then some ⟨1, 0, 0, 1, 0, 1⟩
    else if transformType = "shift_downleft" then some ⟨1, 0, 0, 1, 0, -1⟩
    else if transformType = "shift_upleft" then some ⟨1, 0, 0, 1, -1, 1⟩
    else if transformType = "shift_downright" then some ⟨1, 0, 0, 1, 1, -1⟩
    else if transformType = "skew_left" then some ⟨1, -1, 0, 1, 0, 0⟩
    else if transformType = "skew_right" then some ⟨1, 1, 0, 1, 0, 0⟩
    else if transformType = "skew_upright" then some ⟨1, 0, -1, 1, 0, 0⟩
    else if transformType = "skew_downleft" then some ⟨1, 0, 1, 1, 0, 0⟩
    else if transformType = "skew_upleft" then some ⟨2, 1, -1, 0, 0, 0⟩
    else if transformType = "skew_downright" then some ⟨0, -1, 1, 2, 0, 0⟩
    else if transformType = "rotate_left_hex" then some ⟨0, -1, 1, 1, 0, 0⟩
    else if transformType = "rotate_right_hex" then some ⟨1, 1, -1, 0, 0, 0⟩
    else if transformType = "reflect_x_hex" then some ⟨1, 1, 0, -1, 0, 0⟩
    else if transformType = "reflect_y_hex" then some ⟨-1, 0, 1, 1, 0, 0⟩
    else if transformType = "reflect_xy_hex" then some ⟨0, -1, -1, 0, 0, 0⟩
    else none

/-- `IsomorphicLayout.apply_transformation`: unknown kinds return the
transform unchanged; otherwise the delta is composed between the
translation part and the linear part (isomorphic.py lines 144–149). -/
def isoApplyTransformation (quadOrHex : GridKind)
    (M : IntegerAffineTransform) (transformType : String) :
    IntegerAffineTransform :=
  match isoDelta quadOrHex transformType with
  | none => M
  | some delta =>
    let mTrans : IntegerAffineTransform := ⟨1, 0, 0, 1, M.tx, M.ty⟩
    let mMat : IntegerAffineTransform := ⟨M.a, M.b, M.c, M.d, 0, 0⟩
    mTrans.applyAffine (delta.applyAffine mMat)

/-! ## Bounded MIDI input queue (`midi_handler.py` lines 47–49 and 206–214) -/

/-- `queue.Queue.put_nowait` on a bounded queue: enqueue if below capacity,
otherwise raise `queue.Full` (the callback catches it and drops the
message). -/
def queuePutNowait {α : Type} (maxsize : Nat) (q : List α) (item : α) : List α :=
  if q.length < maxsize then q ++ [item] else q

/-- `MIDIHandler._midi_callback`: push `(message, timestamp)` onto the
queue created with `queue.Queue(maxsize=1000)`; on `queue.Full` the new
message is dropped and a warning logged. -/
def midiCallback (q : List (List Nat × Nat)) (message : List Nat)
    (timestamp : Nat) : List (List Nat × Nat) :=
  queuePutNowait 1000 q (message, timestamp)

/-! ## String-like layout state and `apply_transformation`
(`layouts/string_like.py` lines 40–93) -/

structure StringLikeState where
  root_x : Int
  root_y : Int
  row_offset : Int
  flip_horizontal : Bool
  flip_vertical : Bool
deriving DecidableEq, Repr

/-- `StringLikeLayout.apply_transformation` (string_like.py lines 63–93);
unknown kinds only log a warning. -/
def stringApplyTransformation (st : StringLikeState) (transformType : String) :
    StringLikeState :=
  if transformType = "shift_left" then { st with root_x := st.root_x - 1 }
  else if transformType = "shift_right" then { st with root_x := st.root_x + 1 }
  else if transformType = "shift_up" then { st with root_y := st.root_y + 1 }
  else if transformType = "shift_down" then { st with root_y := st.root_y - 1 }
  else if transformType = "skew_left" then { st with row_offset := st.row_offset - 1 }
  else if transformType = "skew_right" then { st with row_offset := st.row_offset + 1 }
  else if transformType = "reflect_vertical" then
    { st with flip_vertical := !st.flip_vertical }
  else if transformType = "reflect_horizontal" then
    { st with flip_horizontal := !st.flip_horizontal }
  else st

/-! ## Piano-like layout state and `apply_transformation`
(`layouts/piano_like.py` lines 56–124) -/

structure PianoLikeState where
  root_x : Int
  root_y : Int
  strip_width : Int
  scale_row_index : Int
  row_offset : Int
  /-- `_controller_rows`, set during `calculate_mapping` and read by
  `increase_strip_width`. -/
  controller_rows : Int
deriving DecidableEq, Repr

/-- `PianoLikeLayout.apply_transformation` (piano_like.py lines 81–124);
unknown kinds only log a warning. -/
def pianoApplyTransformation (st : PianoLikeState) (transformType : String) :
    PianoLikeState :=
  if transformType = "shift_left" then { st with root_x := st.root_x - 1 }
  else if transformType = "shift_right" then { st with root_x := st.root_x + 1 }
  else if transformType = "shift_up" then { st with root_y := st.root_y + 1 }
  else if transformType = "shift_down" then { st with root_y := st.root_y - 1 }
  else if transformType = "skew_left" then { st with row_offset := st.row_offset - 1 }
  else if transformType = "skew_right" then { st with row_offset := st.row_offset + 1 }
  else if transformType = "increase_strip_width" then
    let w := min (st.strip_width + 1)
      (if st.controller_rows > 0 then st.controller_rows else 6)
    let sri := if st.scale_row_index ≥ w then w - 1 else st.scale_row_index
    { st with strip_width := w, scale_row_index := sri }
  else if transformType = "decrease_strip_width" then
    let w := max (st.strip_width - 1) 1
    let sri := if st.scale_row_index ≥ w then w - 1 else st.scale_row_index
    { st with strip_width := w, scale_row_index := sri }
  else if transformType = "scale_row_up" then
    { st with scale_row_index := min (st.scale_row_index + 1) (st.strip_width - 1) }
  else if transformType = "scale_row_down" then
    { st with scale_row_index := max (st.scale_row_index - 1) 0 }
  else st

/-! ## Tuning handler (`tuning.py` lines 18–143) -/

/-- The fields of `scalatrix.MOS` that the program reads. -/
structure MOS where
  n : Int
  nL : Int
  nS : Int
  /-- Period vector `(a, b)`. -/
  a : Int
  b : Int
  /-- Generator vector `v_gen`. -/
  v_gen_x : Int
  v_gen_y : Int
  /-- Large-step vector x component (`L_vec.x`). -/
  L_vec_x : Int
  a0 : Int
  b0 : Int
  n0 : Int
deriving DecidableEq, Repr

structure TuningState where
  steps : Int
  mos : Option MOS
  scale_degrees : List Int
  L : Int
  s : Int
  scale_present : Bool
  coord_to_scale_index : List ((Int × Int) × Int)
deriving DecidableEq, Repr

/-- Outcome of the `scalatrix` calls inside `_calculate_mos`
(`MOS.fromG`, `affineFromThreeDots`, `Scale.fromAffine`, `getNodes`):
the MOS and the enumerated scale nodes with their natural coordinates. -/
structure MosBuildResult where
  mos : MOS
  nodeCoords : List (Int × Int)
deriving DecidableEq, Repr

/-- `TuningHandler._calculate_mos` (tuning.py lines 80–143): on success
install the MOS, chromatic `scale_degrees = range(steps)`, `L/s` from the
MOS, and the node-coordinate table; on any exception fall back to
chromatic: `mos = None`, `scale = None`, empty `coord_to_scale_index`,
`scale_degrees = range(steps)`, `L, s = steps, 0`. The external library
calls are a parameter: `Except.error` models a raised exception. -/
def calculateMos (st : TuningState) (build : Except String MosBuildResult) :
    TuningState :=
  match build with
  | .ok r =>
    { st with
      mos := some r.mos
      scale_degrees := (List.range st.steps.toNat).map Int.ofNat
      L := r.mos.nL
      s := r.mos.nS
      scale_present := true
      coord_to_scale_index :=
        (r.nodeCoords.enum).map (fun p => (p.2, Int.ofNat p.1)) }
  | .error _ =>
    { st with
      mos := none
      scale_present := false
      coord_to_scale_index := []
      scale_degrees := (List.range st.steps.toNat).map Int.ofNat
      L := st.steps
      s := 0 }

/-! ## Remap-thread message step (`midi_handler.py` lines 253–342)

One iteration of `_processing_loop` on a dequeued message, with the
virtual output open.  Returns the list of messages sent to the virtual
output and the increments of `notes_remapped` and `messages_processed`. -/

structure ProcessResult where
  emitted : List (List Nat)
  notesRemappedInc : Nat
  messagesProcessedInc : Nat
deriving DecidableEq, Repr

/-- `NOTE_ON` status nibble (0x90). -/
def NOTE_ON : Nat := 0x90

/-- `NOTE_OFF` status nibble (0x80). -/
def NOTE_OFF : Nat := 0x80

def processMessage (reverseMapping : List (Nat × (Int × Int)))
    (noteMapping : List ((Int × Int) × Nat)) (message : List Nat) :
    ProcessResult :=
  match message with
  | b0 :: controllerNote :: velocity :: _ =>
    let status := b0 &&& 0xF0
    if status = NOTE_ON ∨ status = NOTE_OFF then
      match dictLookup controllerNote reverseMapping with
      | some logicalCoord =>
        match dictLookup logicalCoord noteMapping with
        | some mappedNote => ⟨[[b0, mappedNote, velocity]], 1, 1⟩
        | none => ⟨[], 0, 0⟩
      | none => ⟨[], 0, 0⟩
    else ⟨[message], 0, 1⟩
  | _ => ⟨[message], 0, 1⟩

/-! ## `calculate_mapping` of the three layout calculators

Python dict comprehension over the pad list is modelled as `List.filterMap`
over the logical coordinates (pad lists enumerate each pad once). -/

/-- Body of the isomorphic per-pad loop (isomorphic.py lines 250–271): apply
the inverse transform, look the MOS coordinate up, and keep the index only
when it lies in the MIDI range `[0, 127]`. -/
def isoMapPad (inv : IntegerAffineTransform)
    (coordToScaleIndex : List ((Int × Int) × Int)) (p : Int × Int) :
    Option ((Int × Int) × Int) :=
  match dictLookup (inv.apply p) coordToScaleIndex with
  | some note => if 0 ≤ note ∧ note ≤ 127 then some (p, note) else none
  | none => none

/-- `IsomorphicLayout.calculate_mapping` (isomorphic.py lines 151–274) given
the current mapping transform: empty result when `scale_degrees` is empty,
when the transform is not invertible, or when no `coord_to_scale_index` is
supplied.  (The MOS first-initialization branch, lines 177–208, is embedded
separately as `isoInitTransform`.) -/
def isoCalculateMapping (M : IntegerAffineTransform) (scaleDegrees : List Int)
    (logicalCoords : List (Int × Int))
    (coordToScaleIndex : Option (List ((Int × Int) × Int))) :
    List ((Int × Int) × Int) :=
  if scaleDegrees = [] then []
  else
    match M.inverse with
    | none => []
    | some inv =>
      match coordToScaleIndex with
      | none => []
      | some c2si => logicalCoords.filterMap (isoMapPad inv c2si)

/-- `StringLikeLayout._get_scale_index` (string_like.py lines 101–117). -/
def stringGetScaleIndex (st : StringLikeState) (lx ly : Int) : Int :=
  let xDelta := lx - st.root_x
  let xDelta := if st.flip_horizontal then -xDelta else xDelta
  let yDelta := ly - st.root_y
  let yDelta := if st.flip_vertical then -yDelta else yDelta
  yDelta * st.row_offset + xDelta + 60

/-- Body of the string-like per-pad loop (string_like.py lines 149–157). -/
def stringMapPad (st : StringLikeState)
    (indexToMosCoord : List (Int × (Int × Int))) (p : Int × Int) :
    Option ((Int × Int) × Int) :=
  let si := stringGetScaleIndex st p.1 p.2
  if (dictLookup si indexToMosCoord).isSome then
    if 0 ≤ si ∧ si ≤ 127 then some (p, si) else none
  else none

/-- `StringLikeLayout.calculate_mapping` (string_like.py lines 119–161).
`_build_reverse_lookup` inverts `coord_to_scale_index`; on duplicate
indices the Python dict keeps the last pair, but only key membership is
consulted here, for which the swapped list is equivalent. -/
def stringCalculateMapping (st : StringLikeState)
    (logicalCoords : List (Int × Int))
    (coordToScaleIndex : Option (List ((Int × Int) × Int))) :
    List ((Int × Int) × Int) :=
  match coordToScaleIndex with
  | none => []
  | some c2si =>
    logicalCoords.filterMap
      (stringMapPad st (c2si.map (fun e => (e.2, e.1))))

/-- Body of the piano-like per-pad loop (piano_like.py lines 184–224):
remainder rows above the complete strips are skipped; every other pad gets
an entry, `None`-valued when its MOS coordinate is not in
`coord_to_scale_index`.  Python `//` and `%` are floor
division/remainder, `Int.fdiv`/`Int.fmod` here. -/
def pianoMosCoord (st : PianoLikeState) (mos : MOS) (minY : Int)
    (p : Int × Int) : Int × Int :=
  let accidentalSign : Int := if mos.L_vec_x = 1 then 1 else -1
  let neutralMode : Int := if mos.L_vec_x = 1 then 1 else mos.n0 - 2
  let yFromBottom := p.2 - minY
  let stripNumber := yFromBottom.fdiv st.strip_width
  let yWithinStrip := yFromBottom.fmod st.strip_width - st.scale_row_index
  let xWithinStrip := p.1 - st.root_x + stripNumber * st.row_offset
  let scaleDegree := xWithinStrip
  let accidental := accidentalSign * yWithinStrip
  let q := (neutralMode - mos.a0 * scaleDegree).fdiv mos.n
  let scaleCoordX := accidental - q
  let scaleCoordY := scaleDegree - scaleCoordX
  (scaleCoordX, scaleCoordY)

def pianoPadEntry (st : PianoLikeState) (mos : MOS) (minY numStrips : Int)
    (coordToScaleIndex : List ((Int × Int) × Int)) (p : Int × Int) :
    Option ((Int × Int) × Option Int) :=
  if p.2 - minY ≥ numStrips * st.strip_width then none
  else
    match dictLookup (pianoMosCoord st mos minY p) coordToScaleIndex with
    | some si => some (p, some si)
    | none => some (p, none)

/-- The piano-like pad loop with MOS and table present
(piano_like.py lines 163–230). -/
def pianoCalculateMappingCore (st : PianoLikeState) (mos : MOS)
    (logicalCoords : List (Int × Int))
    (coordToScaleIndex : List ((Int × Int) × Int)) :
    List ((Int × Int) × Option Int) :=
  match logicalCoords with
  | [] => []
  | c0 :: cs =>
    let minY := (cs.map Prod.snd).foldl min c0.2
    let maxY := (cs.map Prod.snd).foldl max c0.2
    let controllerRows := maxY - minY + 1
    let numStrips := controllerRows.fdiv st.strip_width
    (c0 :: cs).filterMap (pianoPadEntry st mos minY numStrips coordToScaleIndex)

/-- `PianoLikeLayout.calculate_mapping` (piano_like.py lines 127–230).
Returns the dict as built by the loop; the stored values are `Option Int`
because unmapped pads are assigned `None` (line 224). -/
def pianoCalculateMapping (st : PianoLikeState) (mosOpt : Option MOS)
    (logicalCoords : List (Int × Int))
    (coordToScaleIndex : Option (List ((Int × Int) × Int))) :
    List ((Int × Int) × Option Int) :=
  match mosOpt, coordToScaleIndex with
  | some mos, some c2si => pianoCalculateMappingCore st mos logicalCoords c2si
  | _, _ => []

/-! ## Template built-in `cumulativeIndex` -/

/-- Modelled from the spec: the template built-in `cumulativeIndex(x, y)`,
a `ControllerConfig` method referenced by `midi_setup.py` line 232 but
absent from the source snapshot.  Per the spec it computes the flat index
of pad `(x, y)` within the declared row-length array: the sum of the
lengths of the rows preceding row `y` plus the column `x`. -/
def cumulativeIndex (rowLengths : List Nat) (x y : Nat) : Nat :=
  (rowLengths.take y).sum + x

/-- The pads of the declared row-length array enumerated row-major: row `y`
(of declared length `rowLengths[y]`) contributes columns
`(0, y), …, (len-1, y)` in order. -/
def rowMajorPads : List Nat → Nat → List (Nat × Nat)
  | [], _ => []
  | len :: rest, y => ((List.range len).map fun x => (x, y)) ++ rowMajorPads rest (y + 1)

/-! ## The isomorphic first-initialization three-point fit
(`layouts/isomorphic.py` lines 177–208) -/

/-- An affine transform with rational entries (the result of the
`scalatrix` double-precision fit, modelled exactly). -/
structure QAffine where
  a : ℚ
  b : ℚ
  c : ℚ
  d : ℚ
  tx : ℚ
  ty : ℚ
deriving DecidableEq, Repr

/-- Modelled from the spec: scalatrix `affineFromThreeDots`, the
three-point affine fit `F` with `F sᵢ = tᵢ` for `i = 0, 1, 2`, solved by
Cramer's rule on the difference vectors; `none` (the library raises) when
the source triangle is degenerate.  Exact rational arithmetic stands in
for the library's floating point. -/
def affineFromThreeDots (s0 s1 s2 t0 t1 t2 : ℚ × ℚ) : Option QAffine :=
  let p1 := (s1.1 - s0.1, s1.2 - s0.2)
  let p2 := (s2.1 - s0.1, s2.2 - s0.2)
  let u1 := (t1.1 - t0.1, t1.2 - t0.2)
  let u2 := (t2.1 - t0.1, t2.2 - t0.2)
  let detP := p1.1 * p2.2 - p1.2 * p2.1
  if detP = 0 then none
  else
    let a := (u1.1 * p2.2 - u2.1 * p1.2) / detP
    let b := (u2.1 * p1.1 - u1.1 * p2.1) / detP
    let c := (u1.2 * p2.2 - u2.2 * p1.2) / detP
    let d := (u2.2 * p1.1 - u1.2 * p2.1) / detP
    some ⟨a, b, c, d, t0.1 - (a * s0.1 + b * s0.2), t0.2 - (c * s0.1 + d * s0.2)⟩

/-- Python `round`: round half to even. -/
def pyRound (q : ℚ) : Int :=
  let f := ⌊q⌋
  let r := q - f
  if r < 1 / 2 then f
  else if 1 / 2 < r then f + 1
  else if f % 2 = 0 then f else f + 1

/-- The first-initialization branch of `IsomorphicLayout.calculate_mapping`
(isomorphic.py lines 179–208): fit MOS origin → device root, the period
vector `(mos.a, mos.b)` → root + (1, 2), the generator vector → root +
(1, 1) (the device anchors were set from the root at construction,
isomorphic.py lines 58–60, and the root is read back from the still
untouched transform at line 182); install the entrywise-rounded linear
part while keeping the root translation.  Only when the fit raises is the
current transform kept. -/
def isoInitTransform (M : IntegerAffineTransform) (mos : MOS) :
    IntegerAffineTransform :=
  let rootX := M.tx
  let rootY := M.ty
  match affineFromThreeDots (0, 0) ((mos.a : ℚ), (mos.b : ℚ))
      ((mos.v_gen_x : ℚ), (mos.v_gen_y : ℚ))
      ((rootX : ℚ), (rootY : ℚ)) ((rootX : ℚ) + 1, (rootY : ℚ) + 2)
      ((rootX : ℚ) + 1, (rootY : ℚ) + 1) with
  | none => M
  | some F => ⟨pyRound F.a, pyRound F.b, pyRound F.c, pyRound F.d, rootX, rootY⟩

/-! ## Controller-bound MIDI stream parser
(`midi_handler.py` lines 466–532, `_parse_midi_messages`) -/

theorem dropWhile_length_le {α : Type} (p : α → Bool) :
    ∀ l : List α, (l.dropWhile p).length ≤ l.length := by
  intro l
  induction l with
  | nil => simp
  | cons hd tl ih =>
    rw [List.dropWhile_cons]
    split
    · exact Nat.le_succ_of_le ih
    · exact Nat.le_refl _

/-- `MIDIHandler._parse_midi_messages`: split a raw byte stream into
individual MIDI messages.  SysEx runs from `F0` to the next `F7` (or to the
end of the data when no `F7` follows — modelled by the
`takeWhile`/`dropWhile` pair, matching the scan loop at lines 489–495);
channel messages take 1 data byte for `C0/D0` and 2 otherwise;
system-common `F1/F3` take 1 data byte, `F2` takes 2, `F4–F6` none;
`F8–FF` are single-byte; any other leading byte is skipped. -/
def parseMIDIMessages : List Nat → List (List Nat)
  | [] => []
  | status :: rest =>
    if status = 0xF0 then
      let body := rest.takeWhile (fun b => b ≠ 0xF7)
      let after := rest.dropWhile (fun b => b ≠ 0xF7)
      if after = [] then [status :: body]
      else (status :: (body ++ after.take 1)) :: parseMIDIMessages (after.drop 1)
    else if 0x80 ≤ status ∧ status ≤ 0xEF then
      let nData := if status &&& 0xF0 = 0xC0 ∨ status &&& 0xF0 = 0xD0 then 1 else 2
      (status :: rest.take nData) :: parseMIDIMessages (rest.drop nData)
    else if 0xF1 ≤ status ∧ status ≤ 0xF6 then
      let nData := if status = 0xF1 ∨ status = 0xF3 then 1
        else if status = 0xF2 then 2 else 0
      (status :: rest.take nData) :: parseMIDIMessages (rest.drop nData)
    else if 0xF8 ≤ status then
      [status] :: parseMIDIMessages rest
    else
      parseMIDIMessages rest
termination_by l => l.length
decreasing_by
  · have h1 : (rest.dropWhile (fun b => decide (b ≠ 0xF7))).length ≤ rest.length :=
      dropWhile_length_le _ rest
    simp only [List.length_cons, List.length_drop]
    omega
  · simp only [List.length_cons, List.length_drop]
    omega
  · simp only [List.length_cons, List.length_drop]
    omega
  · simp only [List.length_cons]
    omega
  · simp only [List.length_cons]
    omega

/-- A single well-formed MIDI message under the framing rules: SysEx framed
by `F0`/`F7` with 7-bit body; a channel status byte followed by 1 data byte
for `C0/D0` kinds and 2 otherwise; system-common of length 1, 2 or 3
according to the status; a single real-time byte. -/
inductive WellFormedMessage : List Nat → Prop
  | sysEx (body : List Nat) (hbody : ∀ b ∈ body, b < 0x80) :
      WellFormedMessage (0xF0 :: (body ++ [0xF7]))
  | channel1 (status d1 : Nat) (hlo : 0x80 ≤ status) (hhi : status ≤ 0xEF)
      (hkind : status &&& 0xF0 = 0xC0 ∨ status &&& 0xF0 = 0xD0)
      (hd1 : d1 < 0x80) : WellFormedMessage [status, d1]
  | channel2 (status d1 d2 : Nat) (hlo : 0x80 ≤ status) (hhi : status ≤ 0xEF)
      (hkind : ¬(status &&& 0xF0 = 0xC0 ∨ status &&& 0xF0 = 0xD0))
      (hd1 : d1 < 0x80) (hd2 : d2 < 0x80) : WellFormedMessage [status, d1, d2]
  | common1 (status d1 : Nat) (hs : status = 0xF1 ∨ status = 0xF3)
      (hd1 : d1 < 0x80) : WellFormedMessage [status, d1]
  | common2 (d1 d2 : Nat) (hd1 : d1 < 0x80) (hd2 : d2 < 0x80) :
      WellFormedMessage [0xF2, d1, d2]
  | common0 (status : Nat) (hs : status = 0xF4 ∨ status = 0xF5 ∨ status = 0xF6) :
      WellFormedMessage [status]
  | realTime (status : Nat) (hlo : 0xF8 ≤ status) (hhi : status ≤ 0xFF) :
      WellFormedMessage [status]

end PGIsomap

namespace PGIsomap

/-! ## Theorems -/

/-- A key present in an association list is found by `dictLookup`. -/
theorem dictLookup_isSome_of_mem {α β : Type} [DecidableEq α] {k : α} {v : β} :
    ∀ {l : List (α × β)}, (k, v) ∈ l → (dictLookup k l).isSome := by
  intro l
  induction l with
  | nil => intro h; simp at h
  | cons hd tl ih =>
    intro h
    obtain ⟨k2, v2⟩ := hd
    rw [dictLookup_cons]
    by_cases hk : k2 = k
    · simp [hk]
    · simp only [hk, if_false]
      rcases List.mem_cons.mp h with heq | hmem
      · exact absurd (congrArg Prod.fst heq).symm hk
      · exact ih hmem

/-- C6: on the isomorphic layout, `shift_left` then `shift_right` is the
identity on the mapping transform (in both grid modes), `reflect_horizontal`
twice is the identity (rectangular mode), and `rotate_left` four times is the
identity (rectangular mode). -/
theorem iso_transform_roundtrips (g : GridKind) (M : IntegerAffineTransform) :
    isoApplyTransformation g (isoApplyTransformation g M "shift_left") "shift_right" = M ∧
    isoApplyTransformation .rect
      (isoApplyTransformation .rect M "reflect_horizontal") "reflect_horizontal" = M ∧
    isoApplyTransformation .rect (isoApplyTransformation .rect
      (isoApplyTransformation .rect
        (isoApplyTransformation .rect M "rotate_left") "rotate_left") "rotate_left")
      "rotate_left" = M := by
  obtain ⟨a, b, c, d, tx, ty⟩ := M
  refine ⟨?_, ?_, ?_⟩
  · cases g <;>
      simp [isoApplyTransformation, isoDelta, IntegerAffineTransform.applyAffine]
  · simp [isoApplyTransformation, isoDelta, IntegerAffineTransform.applyAffine]
  · simp [isoApplyTransformation, isoDelta, IntegerAffineTransform.applyAffine]

set_option maxRecDepth 4096

/-- C4 counterexample: the input queue is created with `maxsize=1000`, not
1024: a message arriving while the queue holds exactly 1000 entries — fewer
than the claimed capacity of 1024 — is already dropped. -/
theorem queue_capacity_counterexample :
    (List.replicate 1000 (([144, 60, 100] : List Nat), 0)).length = 1000 ∧
    (1000 : Nat) < 1024 ∧
    midiCallback (List.replicate 1000 ([144, 60, 100], 0)) [128, 60, 0] 7 =
      List.replicate 1000 ([144, 60, 100], 0) := by
  refine ⟨by simp, by norm_num, ?_⟩
  simp [midiCallback, queuePutNowait]

/-- C4 (amended): the queue capacity is 1000: a message arriving while the
queue holds exactly 1000 entries is dropped (no queued message is removed),
and a message arriving while the queue holds fewer is appended at the
tail. -/
theorem queue_capacity_1000 (q : List (List Nat × Nat)) (message : List Nat)
    (timestamp : Nat) (hfull : q.length = 1000) (q2 : List (List Nat × Nat))
    (hroom : q2.length < 1000) :
    midiCallback q message timestamp = q ∧
    midiCallback q2 message timestamp = q2 ++ [(message, timestamp)] := by
  constructor
  · simp [midiCallback, queuePutNowait, hfull]
  · simp [midiCallback, queuePutNowait, hroom]

/-- C4 witness: concrete full and non-full queues. -/
theorem queue_capacity_1000_witness :
    midiCallback (List.replicate 1000 ([144, 60, 100], 0)) [128, 60, 0] 7 =
      List.replicate 1000 ([144, 60, 100], 0) ∧
    midiCallback [] [128, 60, 0] 7 = [([128, 60, 0], 7)] := by
  have h := queue_capacity_1000 (List.replicate 1000 ([144, 60, 100], 0))
    [128, 60, 0] 7 (by simp) [] (by simp)
  simpa using h

/-- C8: when the MOS/scale construction raises, `_calculate_mos` completes
(it is a total function of the build outcome) and leaves the handler in the
chromatic fallback state: `scale_degrees = [0, 1, …, steps-1]`,
`coord_to_scale_index` empty, and `mos` and `scale` cleared. -/
theorem tuning_fallback_chromatic (st : TuningState) (e : String) :
    (calculateMos st (.error e)).scale_degrees =
      (List.range st.steps.toNat).map Int.ofNat ∧
    (calculateMos st (.error e)).coord_to_scale_index = [] ∧
    (calculateMos st (.error e)).mos = none ∧
    (calculateMos st (.error e)).scale_present = false := by
  simp [calculateMos]

/-- The transformation kinds recognized by the isomorphic calculator in
rectangular mode. -/
def isoRectKinds : List String :=
  ["shift_left", "shift_right", "shift_up", "shift_down",
   "skew_left", "skew_right", "rotate_left", "rotate_right",
   "reflect_horizontal", "reflect_vertical"]

/-- The transformation kinds recognized by the isomorphic calculator in hex
mode. -/
def isoHexKinds : List String :=
  ["shift_left", "shift_right", "shift_upright", "shift_downleft",
   "shift_upleft", "shift_downright", "skew_left", "skew_right",
   "skew_upright", "skew_downleft", "skew_upleft", "skew_downright",
   "rotate_left_hex", "rotate_right_hex",
   "reflect_x_hex", "reflect_y_hex", "reflect_xy_hex"]

/-- The transformation kinds recognized by the string-like calculator. -/
def stringKinds : List String :=
  ["shift_left", "shift_right", "shift_up", "shift_down",
   "skew_left", "skew_right", "reflect_vertical", "reflect_horizontal"]

/-- The transformation kinds recognized by the piano-like calculator. -/
def pianoKinds : List String :=
  ["shift_left", "shift_right", "shift_up", "shift_down",
   "skew_left", "skew_right", "increase_strip_width", "decrease_strip_width",
   "scale_row_up", "scale_row_down"]

/-- C10: for each layout calculator, `apply_transformation` with a string
that is not one of that calculator's recognized kinds leaves every field of
its state unchanged. -/
theorem unknown_transformation_noop (s : String) (M : IntegerAffineTransform)
    (st : StringLikeState) (pt : PianoLikeState) :
    (s ∉ isoRectKinds → isoApplyTransformation .rect M s = M) ∧
    (s ∉ isoHexKinds → isoApplyTransformation .hex M s = M) ∧
    (s ∉ stringKinds → stringApplyTransformation st s = st) ∧
    (s ∉ pianoKinds → pianoApplyTransformation pt s = pt) := by
  refine ⟨fun h => ?_, fun h => ?_, fun h => ?_, fun h => ?_⟩
  · simp only [isoRectKinds, List.mem_cons, List.not_mem_nil, or_false,
      not_or] at h
    simp [isoApplyTransformation, isoDelta, h]
  · simp only [isoHexKinds, List.mem_cons, List.not_mem_nil, or_false,
      not_or] at h
    simp [isoApplyTransformation, isoDelta, h]
  · simp only [stringKinds, List.mem_cons, List.not_mem_nil, or_false,
      not_or] at h
    simp [stringApplyTransformation, h]
  · simp only [pianoKinds, List.mem_cons, List.not_mem_nil, or_false,
      not_or] at h
    simp [pianoApplyTransformation, h]

/-- C10 witness: the kind `"frobnicate"` is recognized by no calculator and
changes nothing. -/
theorem unknown_transformation_noop_witness :
    isoApplyTransformation .rect ⟨1, 2, 3, 4, 5, 6⟩ "frobnicate" =
      ⟨1, 2, 3, 4, 5, 6⟩ ∧
    isoApplyTransformation .hex ⟨1, 2, 3, 4, 5, 6⟩ "frobnicate" =
      ⟨1, 2, 3, 4, 5, 6⟩ ∧
    stringApplyTransformation ⟨0, 0, 5, false, false⟩ "frobnicate" =
      ⟨0, 0, 5, false, false⟩ ∧
    pianoApplyTransformation ⟨0, 0, 2, 0, 7, 8⟩ "frobnicate" =
      ⟨0, 0, 2, 0, 7, 8⟩ := by
  have h := unknown_transformation_noop "frobnicate" ⟨1, 2, 3, 4, 5, 6⟩
    ⟨0, 0, 5, false, false⟩ ⟨0, 0, 2, 0, 7, 8⟩
  exact ⟨h.1 (by decide), h.2.1 (by decide), h.2.2.1 (by decide),
    h.2.2.2 (by decide)⟩

/-- C1: one remap-thread iteration on a dequeued message.  A message of at
least three bytes whose status nibble is NoteOn or NoteOff is remapped: on a
double lookup hit, exactly `[original status byte, mapped index, velocity]`
is emitted and `notes_remapped` is incremented; on either lookup miss
nothing is emitted; every other message is forwarded unchanged. -/
theorem process_message_spec (reverseMapping : List (Nat × (Int × Int)))
    (noteMapping : List ((Int × Int) × Nat)) :
    (∀ b0 note vel rest coord idx,
      (b0 &&& 0xF0 = NOTE_ON ∨ b0 &&& 0xF0 = NOTE_OFF) →
      dictLookup note reverseMapping = some coord →
      dictLookup coord noteMapping = some idx →
      processMessage reverseMapping noteMapping (b0 :: note :: vel :: rest) =
        ⟨[[b0, idx, vel]], 1, 1⟩) ∧
    (∀ b0 note vel rest,
      (b0 &&& 0xF0 = NOTE_ON ∨ b0 &&& 0xF0 = NOTE_OFF) →
      dictLookup note reverseMapping = none →
      processMessage reverseMapping noteMapping (b0 :: note :: vel :: rest) =
        ⟨[], 0, 0⟩) ∧
    (∀ b0 note vel rest coord,
      (b0 &&& 0xF0 = NOTE_ON ∨ b0 &&& 0xF0 = NOTE_OFF) →
      dictLookup note reverseMapping = some coord →
      dictLookup coord noteMapping = none →
      processMessage reverseMapping noteMapping (b0 :: note :: vel :: rest) =
        ⟨[], 0, 0⟩) ∧
    (∀ message : List Nat,
      (∀ b0 note vel rest, message = b0 :: note :: vel :: rest →
        ¬(b0 &&& 0xF0 = NOTE_ON ∨ b0 &&& 0xF0 = NOTE_OFF)) →
      processMessage reverseMapping noteMapping message = ⟨[message], 0, 1⟩) := by
  refine ⟨?_, ?_, ?_, ?_⟩
  · intro b0 note vel rest coord idx hstatus hrev hmap
    simp [processMessage, hstatus, hrev, hmap]
  · intro b0 note vel rest hstatus hrev
    simp [processMessage, hstatus, hrev]
  · intro b0 note vel rest coord hstatus hrev hmap
    simp [processMessage, hstatus, hrev, hmap]
  · intro message hshort
    match message with
    | [] => simp [processMessage]
    | [b0] => simp [processMessage]
    | [b0, d1] => simp [processMessage]
    | b0 :: d1 :: d2 :: rest =>
      have h := hshort b0 d1 d2 rest rfl
      simp [processMessage, h]

/-- C2 counterexample: the piano-like calculator stores `None` (not an
integer in `[0, 127]`) for a pad whose MOS coordinate is absent from
`coord_to_scale_index`: with `strip_width = 2`, root `(0, 0)`, pads
`(0,0), (0,1)` and an empty `coord_to_scale_index`, the returned dict maps
both pads to `None`. -/
theorem piano_mapping_value_counterexample :
    ¬ (∀ p ∈ pianoCalculateMapping ⟨0, 0, 2, 0, 7, 0⟩
          (some ⟨12, 5, 2, 1, 2, 1, 1, 1, 5, 2, 7⟩) [(0, 0), (0, 1)] (some []),
        ∃ n : Int, p.2 = some n ∧ 0 ≤ n ∧ n ≤ 127) := by
  intro h
  have hmem : ((0, 0), (none : Option Int)) ∈
      pianoCalculateMapping ⟨0, 0, 2, 0, 7, 0⟩
        (some ⟨12, 5, 2, 1, 2, 1, 1, 1, 5, 2, 7⟩) [(0, 0), (0, 1)] (some []) := by
    decide
  obtain ⟨n, hn, -⟩ := h _ hmem
  exact Option.noConfusion hn

/-- C2 (amended): every value stored by the isomorphic and string-like
calculators is an integer in `[0, 127]`; every value stored by the
piano-like calculator is either `None` or an unclamped index taken directly
from `coord_to_scale_index`. -/
theorem mapping_values_in_range :
    (∀ (M : IntegerAffineTransform) (sd : List Int)
       (coords : List (Int × Int)) (c2si : Option (List ((Int × Int) × Int)))
       (p : (Int × Int) × Int), p ∈ isoCalculateMapping M sd coords c2si →
         0 ≤ p.2 ∧ p.2 ≤ 127) ∧
    (∀ (st : StringLikeState) (coords : List (Int × Int))
       (c2si : Option (List ((Int × Int) × Int)))
       (p : (Int × Int) × Int), p ∈ stringCalculateMapping st coords c2si →
         0 ≤ p.2 ∧ p.2 ≤ 127) ∧
    (∀ (st : PianoLikeState) (mos : MOS) (coords : List (Int × Int))
       (c2si : List ((Int × Int) × Int)) (p : (Int × Int) × Option Int)
       (n : Int), p ∈ pianoCalculateMapping st (some mos) coords (some c2si) →
         p.2 = some n → n ∈ c2si.map Prod.snd) := by
  refine ⟨?_, ?_, ?_⟩
  · intro M sd coords c2si p hp
    rw [isoCalculateMapping] at hp
    split at hp
    · simp at hp
    · split at hp
      · simp at hp
      · split at hp
        · simp at hp
        · obtain ⟨a, -, hf⟩ := List.mem_filterMap.mp hp
          rw [isoMapPad] at hf
          split at hf
          · split at hf
            · obtain ⟨rfl⟩ := Option.some.inj hf
              assumption
            · exact absurd hf (by simp)
          · exact absurd hf (by simp)
  · intro st coords c2si p hp
    rw [stringCalculateMapping.eq_def] at hp
    split at hp
    · simp at hp
    · obtain ⟨a, -, hf⟩ := List.mem_filterMap.mp hp
      rw [stringMapPad] at hf
      split at hf
      · split at hf
        · obtain ⟨rfl⟩ := Option.some.inj hf
          assumption
        · exact absurd hf (by simp)
      · exact absurd hf (by simp)
  · intro st mos coords c2si p n hp hn
    have hp2 : p ∈ pianoCalculateMappingCore st mos coords c2si := hp
    rw [pianoCalculateMappingCore.eq_def] at hp2
    match coords with
    | [] => simp at hp2
    | c0 :: cs =>
      obtain ⟨a, -, hf⟩ := List.mem_filterMap.mp hp2
      rw [pianoPadEntry] at hf
      split at hf
      · exact absurd hf (by simp)
      · split at hf
        · obtain ⟨rfl⟩ := Option.some.inj hf
          rename_i si hlook
          obtain ⟨rfl⟩ := Option.some.inj hn
          exact List.mem_map.mpr ⟨_, dictLookup_mem hlook, rfl⟩
        · obtain ⟨rfl⟩ := Option.some.inj hf
          simp at hn

/-- C2 witness: concrete calls of all three calculators. -/
theorem mapping_values_in_range_witness :
    (0 ≤ ((((0, 0) : Int × Int), (60 : Int)).2) ∧
        ((((0, 0) : Int × Int), (60 : Int)).2) ≤ 127) ∧
    (0 ≤ ((((3, 2) : Int × Int), (73 : Int)).2) ∧
        ((((3, 2) : Int × Int), (73 : Int)).2) ≤ 127) ∧
    (130 : Int) ∈ ([(((0, 0) : Int × Int), (130 : Int))].map Prod.snd) := by
  refine ⟨?_, ?_, ?_⟩
  · exact mapping_values_in_range.1 ⟨1, 0, 0, 1, 0, 0⟩ [0] [(0, 0)]
      (some [((0, 0), 60)]) ((0, 0), 60) (by decide)
  · exact mapping_values_in_range.2.1 ⟨0, 0, 5, false, false⟩ [(3, 2)]
      (some [((0, 0), 73)]) ((3, 2), 73) (by decide)
  · exact mapping_values_in_range.2.2 ⟨0, 0, 2, 0, 7, 0⟩
      ⟨12, 5, 2, 1, 2, 1, 1, 1, 5, 2, 7⟩ [(0, 0), (0, 1)] [((0, 0), 130)]
      ((0, 0), some 130) 130 (by decide) (by decide)

/-- C7: every pad that receives an entry from the string-like calculator is
assigned `(±(ly − root_y))·row_offset + (±(lx − root_x)) + 60`, the signs
negated exactly when `flip_vertical` resp. `flip_horizontal` is set; and
with `row_offset = 5`, root `(0, 0)`, both flips off and a scale table
containing index 73, pad `(3, 2)` receives index 73. -/
theorem string_mapping_formula :
    (∀ (st : StringLikeState) (coords : List (Int × Int))
       (c2si : List ((Int × Int) × Int)) (lx ly idx : Int),
      ((lx, ly), idx) ∈ stringCalculateMapping st coords (some c2si) →
      idx = (if st.flip_vertical then -(ly - st.root_y) else ly - st.root_y)
              * st.row_offset
            + (if st.flip_horizontal then -(lx - st.root_x) else lx - st.root_x)
            + 60) ∧
    (∀ (coords : List (Int × Int)) (c2si : List ((Int × Int) × Int)),
      (3, 2) ∈ coords → (∃ coord, (coord, 73) ∈ c2si) →
      ((3, 2), (73 : Int)) ∈
        stringCalculateMapping ⟨0, 0, 5, false, false⟩ coords (some c2si)) := by
  constructor
  · intro st coords c2si lx ly idx hp
    rw [stringCalculateMapping.eq_def] at hp
    obtain ⟨a, -, hf⟩ := List.mem_filterMap.mp hp
    rw [stringMapPad] at hf
    split at hf
    · split at hf
      · obtain ⟨ha, hidx⟩ := Prod.mk.injEq .. ▸ Option.some.inj hf
        obtain ⟨hax, hay⟩ := Prod.mk.injEq .. ▸ ha
        subst hidx
        rw [stringGetScaleIndex, ← hax, ← hay]
      · exact absurd hf (by simp)
    · exact absurd hf (by simp)
  · intro coords c2si hcoord ⟨coord, hval⟩
    rw [stringCalculateMapping.eq_def]
    refine List.mem_filterMap.mpr ⟨(3, 2), hcoord, ?_⟩
    rw [stringMapPad]
    have hsi : stringGetScaleIndex ⟨0, 0, 5, false, false⟩ 3 2 = 73 := by decide
    have hkey : ((73 : Int), coord) ∈ c2si.map (fun e => (e.2, e.1)) :=
      List.mem_map.mpr ⟨(coord, 73), hval, rfl⟩
    simp only [hsi]
    rw [if_pos (dictLookup_isSome_of_mem hkey)]
    norm_num

/-- C7 witness: a chromatic-style table containing index 73 maps pad
`(3, 2)` to 73, which matches the formula `2·5 + 3 + 60`. -/
theorem string_mapping_formula_witness :
    ((3, 2), (73 : Int)) ∈
      stringCalculateMapping ⟨0, 0, 5, false, false⟩ [(3, 2)]
        (some [((0, 0), 73)]) ∧
    (73 : Int) = (2 - 0) * 5 + (3 - 0) + 60 := by
  constructor
  · exact string_mapping_formula.2 [(3, 2)] [((0, 0), 73)] (by decide)
      ⟨(0, 0), by decide⟩
  · have h := string_mapping_formula.1 ⟨0, 0, 5, false, false⟩ [(3, 2)]
      [((0, 0), 73)] 3 2 73
      (string_mapping_formula.2 [(3, 2)] [((0, 0), 73)] (by decide)
        ⟨(0, 0), by decide⟩)
    norm_num at h ⊢

/-- `rowMajorPads` indexed at `(take y).sum + x` yields pad `(x, y)` (row
index shifted by the starting row `y0`). -/
theorem rowMajorPads_getElem (ls : List Nat) (y0 x y : Nat)
    (hy : y < ls.length) (hx : x < ls[y]) :
    (rowMajorPads ls y0)[(ls.take y).sum + x]? = some (x, y0 + y) := by
  induction ls generalizing y0 y with
  | nil => simp at hy
  | cons len rest ih =>
    cases y with
    | zero =>
      simp only [List.take_zero, List.sum_nil, Nat.zero_add, Nat.add_zero]
      rw [rowMajorPads]
      have hxlen : x < len := by simpa using hx
      rw [List.getElem?_append_left (by simpa using hxlen)]
      simp [List.getElem?_map, List.getElem?_range, hxlen]
    | succ y2 =>
      rw [rowMajorPads]
      have hy2 : y2 < rest.length := by simpa using hy
      have hx2 : x < rest[y2] := by simpa using hx
      have hsum : ((len :: rest).take (y2 + 1)).sum + x =
          len + ((rest.take y2).sum + x) := by
        simp [List.take_succ_cons]
        omega
      rw [hsum]
      have hlen : ((List.range len).map fun x => (x, y0)).length = len := by simp
      rw [List.getElem?_append_right (by omega)]
      rw [hlen]
      have hidx : len + ((rest.take y2).sum + x) - len = (rest.take y2).sum + x := by
        omega
      rw [hidx, ih (y0 + 1) y2 hy2 hx2]
      have : y0 + 1 + y2 = y0 + (y2 + 1) := by omega
      rw [this]

/-- C3: `cumulativeIndex(x, y)` is the flat index of pad `(x, y)` within
the declared row-length array: indexing the row-major pad enumeration at
`cumulativeIndex rowLengths x y` yields exactly pad `(x, y)`. -/
theorem cumulativeIndex_is_flat_index (rowLengths : List Nat) (x y : Nat)
    (hy : y < rowLengths.length) (hx : x < rowLengths[y]) :
    (rowMajorPads rowLengths 0)[cumulativeIndex rowLengths x y]? = some (x, y) := by
  have h := rowMajorPads_getElem rowLengths 0 x y hy hx
  simpa [cumulativeIndex] using h

/-- C3 witness: in rows of lengths `[3, 3, 2]`, pad `(1, 2)` has flat index
`3 + 3 + 1 = 7`. -/
theorem cumulativeIndex_is_flat_index_witness :
    (rowMajorPads [3, 3, 2] 0)[cumulativeIndex [3, 3, 2] 1 2]? = some (1, 2) :=
  cumulativeIndex_is_flat_index [3, 3, 2] 1 2 (by decide) (by decide)

/-- C5 counterexample: on first initialization with period vector `(4, 0)`,
generator vector `(1, 1)` and root `(0, 0)`, the rounded fit is the matrix
`[[0, 1], [0, 0]]` with determinant `0 ∉ {+1, −1}`, and it IS installed:
the mapping transform does not remain the identity with the root
translation. -/
theorem iso_init_no_det_check_counterexample :
    isoInitTransform ⟨1, 0, 0, 1, 0, 0⟩ ⟨12, 5, 2, 4, 0, 1, 1, 1, 5, 2, 7⟩ =
      ⟨0, 1, 0, 0, 0, 0⟩ ∧
    IntegerAffineTransform.det ⟨0, 1, 0, 0, 0, 0⟩ ≠ 1 ∧
    IntegerAffineTransform.det ⟨0, 1, 0, 0, 0, 0⟩ ≠ -1 ∧
    isoInitTransform ⟨1, 0, 0, 1, 0, 0⟩ ⟨12, 5, 2, 4, 0, 1, 1, 1, 5, 2, 7⟩ ≠
      ⟨1, 0, 0, 1, 0, 0⟩ := by
  have h : isoInitTransform ⟨1, 0, 0, 1, 0, 0⟩ ⟨12, 5, 2, 4, 0, 1, 1, 1, 5, 2, 7⟩ =
      ⟨0, 1, 0, 0, 0, 0⟩ := by
    rw [isoInitTransform]
    norm_num [affineFromThreeDots, pyRound]
  refine ⟨h, by decide, by decide, ?_⟩
  rw [h]
  decide

/-- C5 (amended): the first-initialization branch computes the three-point
fit and installs the entrywise-rounded linear part unconditionally — there
is no determinant check; the transform keeps its previous value (identity
with the root translation) only when the fit itself raises (degenerate
anchors). -/
theorem iso_init_installs_rounded (M : IntegerAffineTransform) (mos : MOS) :
    (affineFromThreeDots (0, 0) ((mos.a : ℚ), (mos.b : ℚ))
        ((mos.v_gen_x : ℚ), (mos.v_gen_y : ℚ))
        ((M.tx : ℚ), (M.ty : ℚ)) ((M.tx : ℚ) + 1, (M.ty : ℚ) + 2)
        ((M.tx : ℚ) + 1, (M.ty : ℚ) + 1) = none →
      isoInitTransform M mos = M) ∧
    (∀ F, affineFromThreeDots (0, 0) ((mos.a : ℚ), (mos.b : ℚ))
        ((mos.v_gen_x : ℚ), (mos.v_gen_y : ℚ))
        ((M.tx : ℚ), (M.ty : ℚ)) ((M.tx : ℚ) + 1, (M.ty : ℚ) + 2)
        ((M.tx : ℚ) + 1, (M.ty : ℚ) + 1) = some F →
      isoInitTransform M mos =
        ⟨pyRound F.a, pyRound F.b, pyRound F.c, pyRound F.d, M.tx, M.ty⟩) := by
  constructor
  · intro h
    rw [isoInitTransform, h]
  · intro F h
    rw [isoInitTransform, h]

/-- C5 witness: a degenerate period vector `(0, 0)` makes the fit raise and
the transform is kept; the non-unimodular fit of the counterexample input
is installed rounded. -/
theorem iso_init_installs_rounded_witness :
    isoInitTransform ⟨1, 0, 0, 1, 5, 6⟩ ⟨12, 5, 2, 0, 0, 1, 1, 1, 5, 2, 7⟩ =
      ⟨1, 0, 0, 1, 5, 6⟩ ∧
    isoInitTransform ⟨1, 0, 0, 1, 0, 0⟩ ⟨12, 5, 2, 4, 0, 1, 1, 1, 5, 2, 7⟩ =
      ⟨pyRound (1 / 4), pyRound (3 / 4), pyRound (1 / 2), pyRound (1 / 2), 0, 0⟩ := by
  constructor
  · exact (iso_init_installs_rounded ⟨1, 0, 0, 1, 5, 6⟩
      ⟨12, 5, 2, 0, 0, 1, 1, 1, 5, 2, 7⟩).1 (by norm_num [affineFromThreeDots])
  · exact (iso_init_installs_rounded ⟨1, 0, 0, 1, 0, 0⟩
      ⟨12, 5, 2, 4, 0, 1, 1, 1, 5, 2, 7⟩).2 ⟨1 / 4, 3 / 4, 1 / 2, 1 / 2, 0, 0⟩
      (by norm_num [affineFromThreeDots])

theorem takeWhile_append_stop {α : Type} (p : α → Bool) :
    ∀ (l1 : List α), (∀ b ∈ l1, p b = true) → ∀ (x : α), p x = false →
    ∀ (l2 : List α), (l1 ++ x :: l2).takeWhile p = l1 := by
  intro l1
  induction l1 with
  | nil =>
    intro _ x hx l2
    simp [List.takeWhile_cons, hx]
  | cons hd tl ih =>
    intro h x hx l2
    have hhd : p hd = true := h hd (List.mem_cons_self hd tl)
    simp only [List.cons_append, List.takeWhile_cons, hhd]
    rw [ih (fun b hb => h b (List.mem_cons_of_mem hd hb)) x hx l2]
    simp

theorem dropWhile_append_stop {α : Type} (p : α → Bool) :
    ∀ (l1 : List α), (∀ b ∈ l1, p b = true) → ∀ (x : α), p x = false →
    ∀ (l2 : List α), (l1 ++ x :: l2).dropWhile p = x :: l2 := by
  intro l1
  induction l1 with
  | nil =>
    intro _ x hx l2
    simp [List.dropWhile_cons, hx]
  | cons hd tl ih =>
    intro h x hx l2
    have hhd : p hd = true := h hd (List.mem_cons_self hd tl)
    simp only [List.cons_append, List.dropWhile_cons, hhd]
    rw [ih (fun b hb => h b (List.mem_cons_of_mem hd hb)) x hx l2]
    simp

/-- Parsing a well-formed message followed by arbitrary data yields that
message and continues exactly after it. -/
theorem parseMIDIMessages_append (m rest : List Nat)
    (hm : WellFormedMessage m) :
    parseMIDIMessages (m ++ rest) = m :: parseMIDIMessages rest := by
  cases hm with
  | sysEx body hbody =>
    have hforall : ∀ b ∈ body, (fun b => decide (b ≠ (0xF7 : Nat))) b = true := by
      intro b hb
      have := hbody b hb
      simp only [decide_eq_true_eq]
      omega
    have hstop : (fun b => decide (b ≠ (0xF7 : Nat))) 0xF7 = false := by decide
    have e1 : (0xF0 :: (body ++ [0xF7])) ++ rest =
        0xF0 :: (body ++ (0xF7 :: rest)) := by simp
    rw [e1, parseMIDIMessages, if_pos rfl,
      takeWhile_append_stop _ body hforall _ hstop rest,
      dropWhile_append_stop _ body hforall _ hstop rest,
      if_neg (by simp)]
    simp
  | channel1 status d1 hlo hhi hkind hd1 =>
    have h0 : ¬(status = 0xF0) := by omega
    rw [List.cons_append, List.cons_append, parseMIDIMessages, if_neg h0,
      if_pos ⟨hlo, hhi⟩, if_pos hkind]
    simp
  | channel2 status d1 d2 hlo hhi hkind hd1 hd2 =>
    have h0 : ¬(status = 0xF0) := by omega
    rw [List.cons_append, List.cons_append, List.cons_append,
      parseMIDIMessages, if_neg h0, if_pos ⟨hlo, hhi⟩, if_neg hkind]
    simp
  | common1 status d1 hs hd1 =>
    have h0 : ¬(status = 0xF0) := by rcases hs with h | h <;> omega
    have h1 : ¬(0x80 ≤ status ∧ status ≤ 0xEF) := by
      rcases hs with h | h <;> omega
    have h2 : 0xF1 ≤ status ∧ status ≤ 0xF6 := by rcases hs with h | h <;> omega
    rw [List.cons_append, List.cons_append, parseMIDIMessages, if_neg h0,
      if_neg h1, if_pos h2, if_pos hs]
    simp
  | common2 d1 d2 hd1 hd2 =>
    rw [List.cons_append, List.cons_append, List.cons_append,
      parseMIDIMessages, if_neg (by omega), if_neg (by omega),
      if_pos (by omega : (0xF1 : Nat) ≤ 0xF2 ∧ (0xF2 : Nat) ≤ 0xF6),
      if_neg (by simp), if_pos rfl]
    simp
  | common0 status hs =>
    have h0 : ¬(status = 0xF0) := by rcases hs with h | h | h <;> omega
    have h1 : ¬(0x80 ≤ status ∧ status ≤ 0xEF) := by
      rcases hs with h | h | h <;> omega
    have h2 : 0xF1 ≤ status ∧ status ≤ 0xF6 := by
      rcases hs with h | h | h <;> omega
    have h3 : ¬(status = 0xF1 ∨ status = 0xF3) := by
      rcases hs with h | h | h <;> omega
    have h4 : ¬(status = 0xF2) := by rcases hs with h | h | h <;> omega
    rw [List.cons_append, parseMIDIMessages, if_neg h0, if_neg h1,
      if_pos h2, if_neg h3, if_neg h4]
    simp
  | realTime status hlo hhi =>
    have h0 : ¬(status = 0xF0) := by omega
    have h1 : ¬(0x80 ≤ status ∧ status ≤ 0xEF) := by omega
    have h2 : ¬(0xF1 ≤ status ∧ status ≤ 0xF6) := by omega
    rw [List.cons_append, parseMIDIMessages, if_neg h0, if_neg h1,
      if_neg h2, if_pos hlo, List.nil_append]

/-- C9: parsing the concatenation of two well-formed MIDI messages yields
exactly those two messages in order. -/
theorem parse_two_messages (m1 m2 : List Nat)
    (h1 : WellFormedMessage m1) (h2 : WellFormedMessage m2) :
    parseMIDIMessages (m1 ++ m2) = [m1, m2] := by
  have e2 : parseMIDIMessages m2 = [m2] := by
    have h := parseMIDIMessages_append m2 [] h2
    simpa [parseMIDIMessages] using h
  rw [parseMIDIMessages_append m1 m2 h1, e2]

/-- C9 witness: a NoteOn message followed by a SysEx message parses back
into the two messages. -/
theorem parse_two_messages_witness :
    parseMIDIMessages ([0x90, 60, 100] ++ [0xF0, 1, 2, 0xF7]) =
      [[0x90, 60, 100], [0xF0, 1, 2, 0xF7]] :=
  parse_two_messages [0x90, 60, 100] [0xF0, 1, 2, 0xF7]
    (WellFormedMessage.channel2 0x90 60 100 (by omega) (by omega)
      (by decide) (by omega) (by omega))
    (WellFormedMessage.sysEx [1, 2] (by decide))

/-- C1 witness: a NoteOn hit is remapped, a NoteOn miss is dropped, and a
control-change message passes through unchanged. -/
theorem process_message_spec_witness :
    processMessage [(60, (1, 2))] [((1, 2), 73)] [144, 60, 100] =
      ⟨[[144, 73, 100]], 1, 1⟩ ∧
    processMessage [(60, (1, 2))] [((1, 2), 73)] [128, 61, 0] = ⟨[], 0, 0⟩ ∧
    processMessage [(60, (1, 2))] [((1, 2), 73)] [176, 7, 99] =
      ⟨[[176, 7, 99]], 0, 1⟩ := by
  refine ⟨?_, ?_, ?_⟩
  · exact (process_message_spec [(60, (1, 2))] [((1, 2), 73)]).1
      144 60 100 [] (1, 2) 73 (by decide) (by decide) (by decide)
  · exact (process_message_spec [(60, (1, 2))] [((1, 2), 73)]).2.1
      128 61 0 [] (by decide) (by decide)
  · exact (process_message_spec [(60, (1, 2))] [((1, 2), 73)]).2.2.2
      [176, 7, 99] (by intro b0 note vel rest heq; cases heq; decide)

end PGIsomap
